import Mathlib

/-!
# Verification of the `monch` shell core

A shallow embedding, in Lean 4, of the core of the `monch` structured-data
shell: the pipe-type lattice (`src/monch_shell/src/types.rs`), exit-status
aggregation (`src/monch_shell/src/exe.rs`), the pipeline engine
(`src/monch_shell/src/interpreter.rs`), the executable resolver, the built-ins
`cd` and `to` (`src/monch_shell/src/builtin.rs`), the null stream variants
(`src/monch_shell/src/streams.rs`), the streaming record decoder
(`src/monch_io/src/lib.rs`), and the data-path evaluator
(`src/monch_io/src/path.rs`).

Each definition is translated directly from the corresponding Rust item;
OS-level effects (process spawning, file opening, `which` lookups, the
filesystem, the CBOR byte-level decoder) are abstracted into explicit
parameters or effect traces, keeping the control flow of the Rust source.
-/

namespace Monch

/-! ## Pipe types — `src/monch_shell/src/types.rs` -/

/-- The `Ty` enum: the closed set of pipe content types. -/
inductive Ty where
  | Any
  | Unknown
  | Nothing
  | Cbor
  | Text
  | Tty
  deriving DecidableEq, Repr

/-- `impl FromStr for Ty`: trim and lowercase the name, then match it against
`"cbor"`, `"text"`, `"tty"`; everything else is an error (modelled `none`). -/
def Ty.from_str (ty_name : String) : Option Ty :=
  let lower := ty_name.trim.toLower
  if lower = "cbor" then some Ty.Cbor
  else if lower = "text" then some Ty.Text
  else if lower = "tty" then some Ty.Tty
  else none

/-- `can_connect(from, to)`: whether output of type `from` may feed an input of
type `to`. Translated arm-for-arm from `types.rs`. -/
def can_connect (from_ to_ : Ty) : Bool :=
  if to_ = Ty.Any then true
  else if from_ = to_ then true
  else if to_ = Ty.Nothing then true
  else false

/-! ## Exit statuses — `src/monch_shell/src/exe.rs` -/

/-- The `Exit` enum: a numeric exit code, or the number of the signal that
killed the process. -/
inductive Exit where
  | Code (c : Nat)
  | Signal (s : Nat)
  deriving DecidableEq, Repr

/-- `Exit::SUCCESS` -/
def Exit.SUCCESS : Exit := Exit.Code 0

/-- `Exit::FAILURE` -/
def Exit.FAILURE : Exit := Exit.Code 1

/-- `Exit::BAD_SYNTAX` -/
def Exit.BAD_SYNTAX : Exit := Exit.Code 2

/-- `Exit::COULD_NOT_EXECUTE` -/
def Exit.COULD_NOT_EXECUTE : Exit := Exit.Code 126

/-- `Exit::COMMAND_NOT_FOUND` -/
def Exit.COMMAND_NOT_FOUND : Exit := Exit.Code 127

/-- `Exit::success`: whether this is a zero status code. -/
def Exit.success (e : Exit) : Bool := e = Exit.SUCCESS

/-- `Exit::reduce_worst`: the "worst" of two exits, i.e. Bash `&&` logic. -/
def Exit.reduce_worst (a b : Exit) : Exit :=
  if ¬ a.success then a else b

/-- The aggregation step of `Interpreter::eval_command`:
`exit_codes.into_iter().reduce(Exit::reduce_worst).unwrap_or(Exit::SUCCESS)`.
Rust's `Iterator::reduce` left-folds the tail onto the head. -/
def aggregate_exits : List Exit → Exit
  | [] => Exit.SUCCESS
  | e :: rest => rest.foldl Exit.reduce_worst e

/-- Helper: the first non-success exit in the list, else success. This is the
spec's description of the aggregate ("the first eᵢ with eᵢ ≠ success, else
success"). -/
def first_failure (es : List Exit) : Exit :=
  (es.find? (fun e => ¬ e.success)).getD Exit.SUCCESS

/-! ## AST — `src/monch_syntax/src/ast.rs` -/

/-- `Term`: something which evaluates to a string value (currently only
literals). -/
inductive Term where
  | Literal (value : String)
  deriving DecidableEq, Repr

/-- `Invocation`: one stage of a pipeline, an executable term plus argument
terms. -/
structure Invocation where
  executable : Term
  arguments : List Term
  deriving DecidableEq, Repr

/-- `ReadRedirect`: where redirected input may come from. -/
inductive ReadRedirect where
  | File (file : Term)
  deriving DecidableEq, Repr

/-- `WriteRedirect`: where redirected output may go. -/
inductive WriteRedirect where
  | TruncateFile (file : Term)
  | AppendFile (file : Term)
  deriving DecidableEq, Repr

/-- `Command`: a pipeline plus optional stdin/stdout redirections. -/
structure Command where
  pipeline : List Invocation
  stdin_redirect : Option ReadRedirect
  stdout_redirect : Option WriteRedirect
  deriving DecidableEq, Repr

/-! ## Errors — `src/monch_shell/src/error.rs` -/

/-- The shell's `Error` enum. I/O error payloads are dropped; the payloads
that the claims inspect (`ResolveBinary`'s command, `TypeMismatch`'s commands
and types) are kept. -/
inductive Error where
  | Io
  | ExecutionFailed
  | ResolveBinary (cmd : String)
  | BadWorkingDirectory (dir : String)
  | TypeMismatch (l_cmd : String) (l_ty : Ty) (r_cmd : String) (r_ty : Ty)
  deriving DecidableEq, Repr

/-! ## The pipeline engine — `src/monch_shell/src/interpreter.rs`

The `Execute` trait is modelled by its statically-known part: the declared
input/output pipe types as functions of the evaluated arguments. Execution is
abstracted by an oracle (`run`) giving each stage's exit status, and the
engine's OS-level actions are recorded as an explicit effect trace. -/

/-- The statically-known interface of an executable (trait `Execute`). -/
structure ExeModel where
  input_type : List String → Ty
  output_type : List String → Ty

/-- A prepared pipeline stage: command name, executable, evaluated args. -/
structure Stage where
  command : String
  exe : ExeModel
  args : List String

/-- `To::parse_args`: exactly one argument, parsed with `Ty::from_str`. -/
def To.parse_args (args : List String) : Except String Ty :=
  match args with
  | [type_name] =>
    match Ty.from_str type_name with
    | some ty => Except.ok ty
    | none => Except.error ("to: '" ++ type_name ++ "' is not a valid type name")
  | _ => Except.error "to: expected one argument only"

/-- `To::input_type`: always `Cbor`. -/
def To.input_type (_ : List String) : Ty := Ty.Cbor

/-- `To::output_type`: `To::parse_args(args).unwrap_or(Ty::Nothing)`. -/
def To.output_type (args : List String) : Ty :=
  match To.parse_args args with
  | Except.ok ty => ty
  | Except.error _ => Ty.Nothing

/-- The static interface of the `to` builtin. -/
def To.exe : ExeModel := ⟨To.input_type, To.output_type⟩

/-- `Cd::input_type` / `Cd::output_type`: both `Nothing`. -/
def Cd.exe : ExeModel := ⟨fun _ => Ty.Nothing, fun _ => Ty.Nothing⟩

/-- OS-level actions the engine may perform, in order. -/
inductive Effect where
  | OpenRead (file : String)
  | OpenWrite (file : String) (truncate : Bool)
  | Spawn (command : String) (args : List String)

/-- `Interpreter::eval_term`: literals evaluate to their value. -/
def eval_term : Term → Except Error String
  | Term.Literal value => Except.ok value

/-- Phase 1 of `eval_command`: evaluate each invocation's executable term and
arguments, resolve the executable, and build the stage list in order. The
resolver is a parameter (see `resolve_exe` below for its concrete model). -/
def prepare_stages (resolve : String → Except Error ExeModel) :
    List Invocation → Except Error (List Stage)
  | [] => Except.ok []
  | inv :: rest => do
    let command ← eval_term inv.executable
    let args ← inv.arguments.mapM eval_term
    let exe ← resolve command
    let stages ← prepare_stages resolve rest
    Except.ok (⟨command, exe, args⟩ :: stages)

/-- Phase 2 of `eval_command` (interpreter.rs lines 70–79): if the last
stage's declared output type is `Cbor` and there is no stdout redirection,
append a `to tty` stage. -/
def insert_auto_format (stages : List Stage)
    (stdout_redirect : Option WriteRedirect) : List Stage :=
  match stages.getLast? with
  | none => stages
  | some final_stage =>
    if final_stage.exe.output_type final_stage.args = Ty.Cbor
        ∧ stdout_redirect = none
    then stages ++ [⟨"to", To.exe, ["tty"]⟩]
    else stages

/-- Phase 3 of `eval_command` (interpreter.rs lines 81–94): walk adjacent
stage pairs; return the first type mismatch, if any. -/
def typecheck : List Stage → Option Error
  | l :: r :: rest =>
    let l_output := l.exe.output_type l.args
    let r_input := r.exe.input_type r.args
    if ¬ can_connect l_output r_input then
      some (Error.TypeMismatch l.command l_output r.command r_input)
    else typecheck (r :: rest)
  | _ => none

/-- `Interpreter::eval_read_redirect`: evaluate the file name and open it. -/
def eval_read_redirect : ReadRedirect → Except Error Effect
  | ReadRedirect.File file => do
    let name ← eval_term file
    Except.ok (Effect.OpenRead name)

/-- `Interpreter::eval_write_redirect`: evaluate the file name and open it,
truncating or appending. -/
def eval_write_redirect : WriteRedirect → Except Error Effect
  | WriteRedirect.TruncateFile file => do
    let name ← eval_term file
    Except.ok (Effect.OpenWrite name true)
  | WriteRedirect.AppendFile file => do
    let name ← eval_term file
    Except.ok (Effect.OpenWrite name false)

/-- `Interpreter::eval_command`, with spawning and waiting abstracted into the
`run` oracle (each stage's eventual exit status) and OS actions recorded as an
effect trace. Phases in source order: empty-pipeline early return; stage
preparation; auto-format insertion; type-check (aborting with no effects);
redirect evaluation (stdin, then stdout); launch of every stage in order;
wait and exit aggregation. -/
def eval_command (resolve : String → Except Error ExeModel)
    (run : Stage → Exit) (cmd : Command) : (Except Error Exit) × List Effect :=
  if cmd.pipeline.length < 1 then (Except.ok Exit.SUCCESS, [])
  else
    match prepare_stages resolve cmd.pipeline with
    | Except.error e => (Except.error e, [])
    | Except.ok prepared =>
      let stages := insert_auto_format prepared cmd.stdout_redirect
      match typecheck stages with
      | some e => (Except.error e, [])
      | none =>
        let stdin_eff : Except Error (List Effect) :=
          match cmd.stdin_redirect with
          | some redir => (eval_read_redirect redir).map (fun e => [e])
          | none => Except.ok []
        match stdin_eff with
        | Except.error e => (Except.error e, [])
        | Except.ok ein =>
          let stdout_eff : Except Error (List Effect) :=
            match cmd.stdout_redirect with
            | some redir => (eval_write_redirect redir).map (fun e => [e])
            | none => Except.ok []
          match stdout_eff with
          | Except.error e => (Except.error e, ein)
          | Except.ok eout =>
            let spawns := stages.map (fun s => Effect.Spawn s.command s.args)
            let exits := stages.map run
            (Except.ok (aggregate_exits exits), ein ++ eout ++ spawns)

/-- Adjacent pair `(l, r)` of stages connects: `can_connect` holds of `l`'s
declared output and `r`'s declared input. -/
def stage_connects (l r : Stage) : Prop :=
  can_connect (l.exe.output_type l.args) (r.exe.input_type r.args) = true

instance (l r : Stage) : Decidable (stage_connects l r) := by
  unfold stage_connects; infer_instance

/-- `Error::as_exit`: map each error kind to its canonical exit code. -/
def Error.as_exit : Error → Exit
  | Error.Io => Exit.FAILURE
  | Error.TypeMismatch _ _ _ _ => Exit.BAD_SYNTAX
  | Error.ExecutionFailed => Exit.COULD_NOT_EXECUTE
  | Error.ResolveBinary _ => Exit.COMMAND_NOT_FOUND
  | Error.BadWorkingDirectory _ => Exit.FAILURE

/-! ## The executable resolver — `Interpreter::resolve_exe` -/

/-- Outcome of a `which::which_in` lookup: a binary was found at a path, the
specific `CannotFindBinaryPath` error, or any other `which` error. -/
inductive WhichResult where
  | found (path : String)
  | cannotFindBinaryPath
  | otherError
  deriving DecidableEq, Repr

/-- `ExternalExecutable` (exe.rs): a binary path plus declared pipe types. -/
structure ExternalExecutable where
  binary : String
  input_type : Ty
  output_type : Ty
  deriving DecidableEq, Repr

/-- `ExternalExecutable::new`: input defaults to `Any`, output to `Unknown`. -/
def ExternalExecutable.new (path : String) : ExternalExecutable :=
  ⟨path, Ty.Any, Ty.Unknown⟩

/-- `ExternalExecutable::set_input_type` -/
def ExternalExecutable.set_input_type (e : ExternalExecutable) (ty : Ty) :
    ExternalExecutable := { e with input_type := ty }

/-- `ExternalExecutable::set_output_type` -/
def ExternalExecutable.set_output_type (e : ExternalExecutable) (ty : Ty) :
    ExternalExecutable := { e with output_type := ty }

/-- What `resolve_exe` returns, as far as the claims observe it: either a
builtin (with the name it was looked up under), or an external executable. -/
inductive Resolved where
  | builtin (name : String) (exe : ExeModel)
  | external (exe : ExternalExecutable)

/-- The builtin registry `BUILTINS` (builtin.rs): a map from `"cd"` and
`"to"` to their executors; `BTreeMap::get` is exact string lookup. -/
def BUILTINS.get (name : String) : Option ExeModel :=
  if name = "cd" then some Cd.exe
  else if name = "to" then some To.exe
  else none

/-- `Interpreter::resolve_exe` (interpreter.rs lines 134–182). The two
`which::which_in` searches (over `MONCH_PATH` and `PATH`) are parameters.
Order: builtin registry; shell path (a non-not-found error aborts, a hit is
typed `Cbor`/`Cbor`); system path (a hit keeps the `new()` defaults
`Any`/`Unknown`, any error becomes `ResolveBinary`). -/
def resolve_exe (monch_path_lookup sys_path_lookup : String → WhichResult)
    (bin_name : String) : Except Error Resolved :=
  match BUILTINS.get bin_name with
  | some b => Except.ok (Resolved.builtin bin_name b)
  | none =>
    match monch_path_lookup bin_name with
    | WhichResult.otherError => Except.error (Error.ResolveBinary bin_name)
    | WhichResult.found monch_bin =>
      let exe := ExternalExecutable.new monch_bin
      let exe := exe.set_input_type Ty.Cbor
      let exe := exe.set_output_type Ty.Cbor
      Except.ok (Resolved.external exe)
    | WhichResult.cannotFindBinaryPath =>
      match sys_path_lookup bin_name with
      | WhichResult.found other_bin =>
        Except.ok (Resolved.external (ExternalExecutable.new other_bin))
      | _ => Except.error (Error.ResolveBinary bin_name)

/-! ## Null streams — `src/monch_shell/src/streams.rs`

The pipe and file variants do real OS I/O; they are modelled as carried
functions, to which reads and writes are passed through unchanged. A read
takes a buffer size and returns the bytes read (at most that many); a write
takes the buffer and returns how many bytes were consumed. `none`-free
`Except Unit` stands in for `io::Result`. -/

/-- `ReadStream`: pipe, file, or the null source. -/
inductive ReadStream where
  | Pipe (read_fn : Nat → Except Unit (List Nat))
  | File (read_fn : Nat → Except Unit (List Nat))
  | Null

/-- The `io::Read` impl for `ReadStream` (streams.rs lines 33–44): null
returns no data (`Ok(0)`), pipe and file pass the read through. -/
def ReadStream.read : ReadStream → Nat → Except Unit (List Nat)
  | ReadStream.Null, _ => Except.ok []
  | ReadStream.Pipe r, n => r n
  | ReadStream.File r, n => r n

/-- `WriteStream`: pipe, file, or the null sink. -/
inductive WriteStream where
  | Pipe (write_fn : List Nat → Except Unit Nat)
  | File (write_fn : List Nat → Except Unit Nat)
  | Null

/-- The `io::Write` impl for `WriteStream` (streams.rs lines 90–100): null
reports zero bytes consumed (`Ok(0)`, "the write stream is closed"), pipe and
file pass the write through. -/
def WriteStream.write : WriteStream → List Nat → Except Unit Nat
  | WriteStream.Null, _ => Except.ok 0
  | WriteStream.Pipe w, buf => w buf
  | WriteStream.File w, buf => w buf

/-- `WriteStream::flush` (streams.rs lines 102–111): ignored for null. -/
def WriteStream.flush : WriteStream → Except Unit Unit
  | WriteStream.Null => Except.ok ()
  | WriteStream.Pipe _ => Except.ok ()
  | WriteStream.File _ => Except.ok ()

/-! ## The streaming record decoder — `src/monch_io/src/lib.rs`

`InputParser` iterates records off a byte stream. The byte-level CBOR decoder
(`ciborium::de::from_reader`) is external to this repository and is a
parameter `dec`: given the input bytes it returns one decoded item or an
error, together with the bytes it did not consume. -/

/-- One `Iterator::next` step of `InputParser` (lib.rs lines 114–140): peek
for EOF (`fill_buf`); if the input is exhausted, stop cleanly (`none`);
otherwise decode one object, passing a decode error through as an error
item. Returns the yielded item (if any) and the remaining input. -/
def InputParser.next {T : Type} (dec : List Nat → (Except Unit T) × List Nat)
    (input : List Nat) : Option (Except Unit T) × List Nat :=
  if input = [] then (none, input)
  else
    match dec input with
    | (Except.ok obj, rest) => (some (Except.ok obj), rest)
    | (Except.error e, rest) => (some (Except.error e), rest)

/-- Drive `InputParser.next` up to `fuel` steps, collecting the yielded
items; iteration stops at the first `none`. -/
def InputParser.items {T : Type} (dec : List Nat → (Except Unit T) × List Nat) :
    Nat → List Nat → List (Except Unit T)
  | 0, _ => []
  | fuel + 1, input =>
    match InputParser.next dec input with
    | (none, _) => []
    | (some item, rest) => item :: InputParser.items dec fuel rest

/-- A toy record codec over `T = Nat` (each record encoded as a tag byte `1`
followed by the value), used to instantiate the decoder parameter in
witnesses. A lone tag byte is a non-empty strict prefix of a record; on it
the decoder errors out, consuming everything. -/
def toy_dec : List Nat → (Except Unit Nat) × List Nat
  | 1 :: n :: rest => (Except.ok n, rest)
  | _ => (Except.error (), [])

/-- The encoder of the toy codec. -/
def toy_enc (n : Nat) : List Nat := [1, n]

/-! ## The data path — `src/monch_io/src/path.rs` -/

/-- The ciborium CBOR `Value`, as far as `DataPath::get_from` inspects it.
Floats are carried as raw bit patterns; `get_from` never looks inside them.
(`Boolean` models the `Value::Bool` variant; the source name collides with
Lean's `Bool` inside the declaration.) -/
inductive Value where
  | Null
  | Boolean (b : Bool)
  | Integer (i : Int)
  | Float (bits : Nat)
  | Bytes (bs : List Nat)
  | Text (s : String)
  | Array (items : List Value)
  | Map (entries : List (Value × Value))
  | Tag (tag : Nat) (inner : Value)
  deriving Repr

/-- Whether a value is a `Tag`. -/
def Value.is_tag : Value → Bool
  | Value.Tag _ _ => true
  | _ => false

mutual

/-- Structural equality on `Value` (ciborium's derived `PartialEq`). -/
def Value.beq : Value → Value → Bool
  | Value.Null, Value.Null => true
  | Value.Boolean a, Value.Boolean b => a = b
  | Value.Integer a, Value.Integer b => a = b
  | Value.Float a, Value.Float b => a = b
  | Value.Bytes a, Value.Bytes b => a = b
  | Value.Text a, Value.Text b => a = b
  | Value.Array a, Value.Array b => Value.beq_list a b
  | Value.Map a, Value.Map b => Value.beq_entries a b
  | Value.Tag t a, Value.Tag u b => t = u && Value.beq a b
  | _, _ => false

/-- Elementwise equality of value lists. -/
def Value.beq_list : List Value → List Value → Bool
  | [], [] => true
  | x :: xs, y :: ys => Value.beq x y && Value.beq_list xs ys
  | _, _ => false

/-- Elementwise equality of map entry lists. -/
def Value.beq_entries : List (Value × Value) → List (Value × Value) → Bool
  | [], [] => true
  | (k1, v1) :: xs, (k2, v2) :: ys =>
    Value.beq k1 k2 && Value.beq v1 v2 && Value.beq_entries xs ys
  | _, _ => false

end

/-- `DataPath::get_from` (path.rs lines 45–110). The path is the
`Vec<Value>` inside `DataPath`. Tags are unwrapped before anything else; an
empty path returns the current value; integer keys index arrays
(out-of-range gives `Null`; `usize::try_from` panics on a negative key,
which `DataPath::parse` never produces — the model bounds-checks instead);
any key selects the first matching map entry, recursing into `Null` when
absent; every scalar gives `Null`. -/
def get_from (path : List Value) (value : Value) : Value :=
  match value, path with
  | Value.Tag _ inner, p => get_from p inner
  | v, [] => v
  | Value.Array arr, key :: rest =>
    match key with
    | Value.Integer k =>
      if h : 0 ≤ k ∧ k.toNat < arr.length then
        get_from rest (arr.get ⟨k.toNat, h.2⟩)
      else Value.Null
    | _ => Value.Null
  | Value.Map entries, key :: rest =>
    let inner := ((entries.find? (fun kv => Value.beq kv.1 key)).map Prod.snd).getD Value.Null
    get_from rest inner
  | _, _ :: _ => Value.Null
termination_by (path.length, sizeOf value)
decreasing_by
  all_goals simp_wf
  all_goals first
    | (apply Prod.Lex.right; omega)
    | (apply Prod.Lex.left; omega)

/-! ## `cd` and the working directory — builtin.rs / interpreter.rs -/

/-- An abstract filesystem as `cd` observes it: canonicalization (`none`
models an `io::Error`), directory testing, and path join. -/
structure FileSys where
  canonicalize : String → Option String
  is_dir : String → Bool
  join : String → String → String

/-- The interpreter state `cd` touches: the current working directory. -/
structure Interp where
  current_dir : String
  deriving DecidableEq, Repr

/-- `Interpreter::set_current_dir` (interpreter.rs lines 273–288):
canonicalize, require a directory, then commit. -/
def set_current_dir (fs : FileSys) (int : Interp) (new_cwd : String) :
    Except Error Interp :=
  match fs.canonicalize new_cwd with
  | none => Except.error Error.Io
  | some canon =>
    if ¬ fs.is_dir canon then
      Except.error (Error.BadWorkingDirectory canon)
    else
      Except.ok { int with current_dir := canon }

/-- `Cd::execute` (builtin.rs lines 48–76), returning the (immediate) exit
status and the resulting interpreter state. Stderr diagnostics are not
modelled. -/
def Cd.execute (fs : FileSys) (int : Interp) (args : List String) :
    Exit × Interp :=
  match args with
  | [dir] =>
    let new_workdir := fs.join int.current_dir dir
    if ¬ fs.is_dir new_workdir then (Exit.FAILURE, int)
    else
      match set_current_dir fs int new_workdir with
      | Except.ok int' => (Exit.SUCCESS, int')
      | Except.error e => (e.as_exit, int)
  | _ => (Exit.FAILURE, int)

/-- A concrete filesystem used by witnesses: `"/"` and `"/a"` exist, are
directories, and are their own canonical forms; join ignores the base. -/
def fsW : FileSys where
  canonicalize p := if p = "/" then some "/" else if p = "/a" then some "/a" else none
  is_dir p := p = "/" ∨ p = "/a"
  join _ p := p

/-! ## Concrete instances used by witnesses -/

/-- A stage interface accepting anything and emitting text. -/
def exe_text_out : ExeModel := ⟨fun _ => Ty.Any, fun _ => Ty.Text⟩

/-- A stage interface demanding CBOR and emitting text. -/
def exe_cbor_in : ExeModel := ⟨fun _ => Ty.Cbor, fun _ => Ty.Text⟩

/-- A stage interface accepting anything and emitting CBOR. -/
def exe_cbor_out : ExeModel := ⟨fun _ => Ty.Any, fun _ => Ty.Cbor⟩

/-- A resolver where every name is an anything-to-text stage. -/
def resolve_all_text : String → Except Error ExeModel :=
  fun _ => Except.ok exe_text_out

/-- A resolver making `"a"` a text producer and everything else a CBOR
consumer, so that `a | b` has a type mismatch. -/
def resolve_mismatch : String → Except Error ExeModel :=
  fun name => if name = "a" then Except.ok exe_text_out else Except.ok exe_cbor_in

/-- The two-stage command `a | b` with no redirections. -/
def cmd_ab : Command :=
  ⟨[⟨Term.Literal "a", []⟩, ⟨Term.Literal "b", []⟩], none, none⟩

/-- An exit oracle: stage `a` exits 3, everything else succeeds. -/
def run_a3 : Stage → Exit :=
  fun s => if s.command = "a" then Exit.Code 3 else Exit.SUCCESS

/-!
# Theorems

Everything below settles the claims `C1`–`C10` against the embedding above.
-/

/-! ### Exit aggregation helpers -/

theorem reduce_worst_of_failure (a b : Exit) (h : ¬ a.success) :
    Exit.reduce_worst a b = a := by
  simp [Exit.reduce_worst, h]

theorem foldl_reduce_worst_of_failure (a : Exit) (l : List Exit)
    (h : ¬ a.success) : l.foldl Exit.reduce_worst a = a := by
  induction l with
  | nil => rfl
  | cons b l ih => simpa [List.foldl, reduce_worst_of_failure a b h] using ih

theorem aggregate_eq_first_failure (es : List Exit) :
    aggregate_exits es = first_failure es := by
  induction es with
  | nil => rfl
  | cons e rest ih =>
    by_cases h : e.success = true
    · have hs : e = Exit.SUCCESS := by
        simpa [Exit.success] using h
      cases rest with
      | nil => simp [aggregate_exits, first_failure, hs, Exit.success]
      | cons f rs =>
        simp only [aggregate_exits, List.foldl] at ih ⊢
        rw [show Exit.reduce_worst e f = f by simp [Exit.reduce_worst, h]]
        rw [ih]
        simp [first_failure, List.find?, hs, Exit.success]
    · simp [aggregate_exits, first_failure, List.find?,
            foldl_reduce_worst_of_failure e rest (by simpa using h), h]

/-! ### Typecheck helpers -/

theorem eval_read_redirect_ok (r : ReadRedirect) :
    ∃ eff, eval_read_redirect r = Except.ok eff := by
  rcases r with ⟨⟨v⟩⟩
  exact ⟨Effect.OpenRead v, rfl⟩

theorem eval_write_redirect_ok (r : WriteRedirect) :
    ∃ eff, eval_write_redirect r = Except.ok eff := by
  rcases r with ⟨⟨v⟩⟩ | ⟨⟨v⟩⟩
  · exact ⟨Effect.OpenWrite v true, rfl⟩
  · exact ⟨Effect.OpenWrite v false, rfl⟩

theorem typecheck_none_iff_chain (stages : List Stage) :
    typecheck stages = none ↔ List.Chain' stage_connects stages := by
  induction stages with
  | nil => simp [typecheck]
  | cons l rest ih =>
    cases rest with
    | nil => simp [typecheck]
    | cons r rest' =>
      rw [typecheck, List.chain'_cons]
      by_cases h : can_connect (l.exe.output_type l.args)
          (r.exe.input_type r.args) = true
      · simp [h, ih, stage_connects]
      · simp [h, stage_connects]

theorem typecheck_some_shape (stages : List Stage) (e : Error)
    (h : typecheck stages = some e) :
    ∃ p ∈ stages.zip stages.tail,
      ¬ stage_connects p.1 p.2 ∧
      e = Error.TypeMismatch p.1.command (p.1.exe.output_type p.1.args)
            p.2.command (p.2.exe.input_type p.2.args) := by
  induction stages with
  | nil => simp [typecheck] at h
  | cons l rest ih =>
    cases rest with
    | nil => simp [typecheck] at h
    | cons r rest' =>
      rw [typecheck] at h
      by_cases hc : can_connect (l.exe.output_type l.args)
          (r.exe.input_type r.args) = true
      · rw [if_neg (fun hn => hn hc)] at h
        obtain ⟨p, hp, hnc, he⟩ := ih h
        simp only [List.tail_cons] at hp ⊢
        rw [List.zip_cons_cons]
        exact ⟨p, List.mem_cons_of_mem _ hp, hnc, he⟩
      · rw [if_pos hc] at h
        have he := Option.some.inj h
        refine ⟨(l, r), ?_, ?_, he.symm⟩
        · simp
        · simpa [stage_connects] using hc

/-! ### The claims -/

/-- C1: for every pipeline evaluated by the engine, with per-stage exit
statuses collected in left-to-right launch order (the `run` oracle mapped
over the realized stage list), `eval_command` returns the first non-success
status, success when all stages succeed, and success for an empty pipeline
(there the realized stage list is empty, so `first_failure` is success). -/
theorem eval_command_first_failure
    (resolve : String → Except Error ExeModel) (run : Stage → Exit)
    (cmd : Command) (prepared : List Stage)
    (hprep : prepare_stages resolve cmd.pipeline = Except.ok prepared)
    (hty : typecheck (insert_auto_format prepared cmd.stdout_redirect) = none) :
    (eval_command resolve run cmd).1 =
      Except.ok (first_failure
        ((insert_auto_format prepared cmd.stdout_redirect).map run)) := by
  rcases hpipe : cmd.pipeline with _ | ⟨inv, rest⟩
  · rw [hpipe] at hprep
    have hp : prepared = [] := by
      simpa [prepare_stages] using hprep
    subst hp
    simp [eval_command, hpipe, insert_auto_format, first_failure]
  · have hlen : ¬ (cmd.pipeline.length < 1) := by
      rw [hpipe]; simp
    rw [eval_command, if_neg hlen, hprep]
    simp only
    rw [hty]
    obtain ⟨eo, heo⟩ :
        ∃ eo : List Effect,
          (match cmd.stdout_redirect with
           | some redir => (eval_write_redirect redir).map (fun e => [e])
           | none => Except.ok []) = Except.ok eo := by
      rcases cmd.stdout_redirect with _ | r
      · exact ⟨[], rfl⟩
      · obtain ⟨eff, heff⟩ := eval_write_redirect_ok r
        exact ⟨[eff], by simp [heff, Except.map]⟩
    obtain ⟨ei, hei⟩ :
        ∃ ei : List Effect,
          (match cmd.stdin_redirect with
           | some redir => (eval_read_redirect redir).map (fun e => [e])
           | none => Except.ok []) = Except.ok ei := by
      rcases cmd.stdin_redirect with _ | r
      · exact ⟨[], rfl⟩
      · obtain ⟨eff, heff⟩ := eval_read_redirect_ok r
        exact ⟨[eff], by simp [heff, Except.map]⟩
    simp only [hei, heo]
    rw [aggregate_eq_first_failure]

/-- C1 witness: the pipeline `a | b` where every stage emits text and stage
`a` exits 3: the aggregate exit is 3. -/
theorem eval_command_first_failure_witness :
    (eval_command resolve_all_text run_a3 cmd_ab).1 = Except.ok (Exit.Code 3) := by
  have h := eval_command_first_failure resolve_all_text run_a3 cmd_ab
    [⟨"a", exe_text_out, []⟩, ⟨"b", exe_text_out, []⟩] rfl rfl
  simpa [insert_auto_format, exe_text_out, first_failure, List.find?,
    Exit.success, run_a3, Exit.SUCCESS] using h

/-- C2: if the final prepared stage's declared output type is `Cbor` and
there is no stdout redirection, the realized pipeline is the prepared one
plus exactly one trailing stage named `to` with the single argument `tty`;
in every other case it is the prepared pipeline unchanged. -/
theorem insert_auto_format_to_tty (stages : List Stage) (final : Stage)
    (redir : Option WriteRedirect) (hlast : stages.getLast? = some final) :
    (final.exe.output_type final.args = Ty.Cbor ∧ redir = none →
      insert_auto_format stages redir = stages ++ [⟨"to", To.exe, ["tty"]⟩])
    ∧ (¬ (final.exe.output_type final.args = Ty.Cbor ∧ redir = none) →
      insert_auto_format stages redir = stages) := by
  constructor <;> intro h <;> simp [insert_auto_format, hlast, h]

/-- C2 witness: a single CBOR-emitting stage with no redirection gets `to
tty` appended. -/
theorem insert_auto_format_to_tty_witness :
    insert_auto_format [⟨"ls", exe_cbor_out, []⟩] none =
      [⟨"ls", exe_cbor_out, []⟩, ⟨"to", To.exe, ["tty"]⟩] :=
  (insert_auto_format_to_tty [⟨"ls", exe_cbor_out, []⟩]
    ⟨"ls", exe_cbor_out, []⟩ none rfl).1 ⟨rfl, rfl⟩

/-- C3: `can_connect(from, to)` is true iff `to = Any`, or `from = to`, or
`to = Nothing`; no other pair is connectable. -/
theorem can_connect_iff :
    ∀ from_ to_ : Ty, can_connect from_ to_ = true ↔
      (to_ = Ty.Any ∨ from_ = to_ ∨ to_ = Ty.Nothing) := by
  intro from_ to_
  cases from_ <;> cases to_ <;> decide

/-- C4: if some adjacent pair of the realized pipeline fails `can_connect`,
`eval_command` returns a type-mismatch error naming both commands and both
types (those of an actual adjacent failing pair), and its effect trace is
empty: nothing is spawned and no redirection file is opened. -/
theorem type_mismatch_no_effects
    (resolve : String → Except Error ExeModel) (run : Stage → Exit)
    (cmd : Command) (prepared : List Stage)
    (hprep : prepare_stages resolve cmd.pipeline = Except.ok prepared)
    (hmis : ¬ List.Chain' stage_connects
      (insert_auto_format prepared cmd.stdout_redirect)) :
    ∃ l r,
      (l, r) ∈ (insert_auto_format prepared cmd.stdout_redirect).zip
        (insert_auto_format prepared cmd.stdout_redirect).tail ∧
      ¬ stage_connects l r ∧
      eval_command resolve run cmd =
        (Except.error (Error.TypeMismatch l.command (l.exe.output_type l.args)
          r.command (r.exe.input_type r.args)), []) := by
  obtain ⟨e, he⟩ :
      ∃ e, typecheck (insert_auto_format prepared cmd.stdout_redirect) = some e := by
    rcases h : typecheck (insert_auto_format prepared cmd.stdout_redirect) with _ | e
    · exact absurd ((typecheck_none_iff_chain _).mp h) hmis
    · exact ⟨e, rfl⟩
  obtain ⟨⟨l, r⟩, hp, hnc, hshape⟩ := typecheck_some_shape _ _ he
  rcases hpipe : cmd.pipeline with _ | ⟨inv, rest⟩
  · exfalso
    rw [hpipe] at hprep
    have hp0 : prepared = [] := by
      simpa [prepare_stages] using hprep
    rw [hp0] at hmis
    exact hmis (by simp [insert_auto_format])
  · have hlen : ¬ (cmd.pipeline.length < 1) := by
      rw [hpipe]; simp
    refine ⟨l, r, hp, hnc, ?_⟩
    rw [eval_command, if_neg hlen, hprep]
    simp only
    rw [he, hshape]

/-- C4 witness: `a | b` where `a` emits text and `b` demands CBOR: the
engine reports the mismatch naming both stages and types, with an empty
effect trace. -/
theorem type_mismatch_no_effects_witness :
    ∃ l r,
      (l, r) ∈ (insert_auto_format [⟨"a", exe_text_out, []⟩, ⟨"b", exe_cbor_in, []⟩]
        none).zip
        ((insert_auto_format [⟨"a", exe_text_out, []⟩, ⟨"b", exe_cbor_in, []⟩]
          none).tail) ∧
      ¬ stage_connects l r ∧
      eval_command resolve_mismatch run_a3 cmd_ab =
        (Except.error (Error.TypeMismatch l.command (l.exe.output_type l.args)
          r.command (r.exe.input_type r.args)), []) := by
  have h := type_mismatch_no_effects resolve_mismatch run_a3 cmd_ab
    [⟨"a", exe_text_out, []⟩, ⟨"b", exe_cbor_in, []⟩] rfl
    (by
      intro hch
      simp only [cmd_ab] at hch
      have h2 : insert_auto_format [⟨"a", exe_text_out, []⟩, ⟨"b", exe_cbor_in, []⟩]
          none = [⟨"a", exe_text_out, []⟩, ⟨"b", exe_cbor_in, []⟩] := by
        simp [insert_auto_format, exe_cbor_in]
      rw [h2] at hch
      have := (List.chain'_cons.mp hch).1
      simp [stage_connects, exe_text_out, exe_cbor_in, can_connect] at this)
  exact h

/-- C5: resolver order and typing: (1) builtin registry hit; (2) shell search
path hit gives an external executable typed `Cbor`/`Cbor`, and a shell-path
failure other than binary-not-found aborts as a resolve-binary error; (3)
system search path hit gives an external executable typed `Any`/`Unknown`;
(4) otherwise a resolve-binary error. -/
theorem resolve_exe_order
    (ml sl : String → WhichResult) (name p : String) :
    (∀ b, BUILTINS.get name = some b →
      resolve_exe ml sl name = Except.ok (Resolved.builtin name b))
    ∧ (BUILTINS.get name = none → ml name = WhichResult.found p →
      resolve_exe ml sl name =
        Except.ok (Resolved.external ⟨p, Ty.Cbor, Ty.Cbor⟩))
    ∧ (BUILTINS.get name = none → ml name = WhichResult.otherError →
      resolve_exe ml sl name = Except.error (Error.ResolveBinary name))
    ∧ (BUILTINS.get name = none → ml name = WhichResult.cannotFindBinaryPath →
      sl name = WhichResult.found p →
      resolve_exe ml sl name =
        Except.ok (Resolved.external ⟨p, Ty.Any, Ty.Unknown⟩))
    ∧ (BUILTINS.get name = none → ml name = WhichResult.cannotFindBinaryPath →
      (sl name = WhichResult.cannotFindBinaryPath
        ∨ sl name = WhichResult.otherError) →
      resolve_exe ml sl name = Except.error (Error.ResolveBinary name)) := by
  refine ⟨?_, ?_, ?_, ?_, ?_⟩
  · intro b hb
    simp [resolve_exe, hb]
  · intro hb hm
    simp [resolve_exe, hb, hm, ExternalExecutable.new,
      ExternalExecutable.set_input_type, ExternalExecutable.set_output_type]
  · intro hb hm
    simp [resolve_exe, hb, hm]
  · intro hb hm hs
    simp [resolve_exe, hb, hm, hs, ExternalExecutable.new]
  · intro hb hm hs
    rcases hs with hs | hs <;> simp [resolve_exe, hb, hm, hs]

/-- C5 witness: a name absent from the registry but on the shell path
resolves to an external executable typed `Cbor`/`Cbor`. -/
theorem resolve_exe_order_witness :
    resolve_exe (fun _ => WhichResult.found "/monch/ls")
      (fun _ => WhichResult.cannotFindBinaryPath) "ls" =
      Except.ok (Resolved.external ⟨"/monch/ls", Ty.Cbor, Ty.Cbor⟩) :=
  (resolve_exe_order (fun _ => WhichResult.found "/monch/ls")
    (fun _ => WhichResult.cannotFindBinaryPath) "ls" "/monch/ls").2.1 rfl rfl

/-! ### Input parser helpers -/

theorem items_nil {T : Type} (dec : List Nat → (Except Unit T) × List Nat)
    (fuel : Nat) : InputParser.items dec fuel [] = [] := by
  cases fuel with
  | zero => rfl
  | succ f => simp [InputParser.items, InputParser.next]

theorem items_decode_chain {T : Type}
    (dec : List Nat → (Except Unit T) × List Nat) (enc : T → List Nat)
    (chunk : List Nat) (hne : chunk ≠ [])
    (hcerr : dec chunk = (Except.error (), [])) :
    ∀ (ts : List T) (fuel : Nat),
      (∀ t ∈ ts, ∀ s, dec (enc t ++ s) = (Except.ok t, s)) →
      ts.length + 1 ≤ fuel →
      InputParser.items dec fuel ((ts.map enc).flatten ++ chunk)
        = ts.map Except.ok ++ [Except.error ()] := by
  intro ts
  induction ts with
  | nil =>
    intro fuel hdec hfuel
    obtain ⟨f, rfl⟩ : ∃ f, fuel = f + 1 := ⟨fuel - 1, by omega⟩
    simp only [List.map_nil, List.flatten_nil, List.nil_append]
    simp only [InputParser.items]
    rw [show InputParser.next dec chunk = (some (Except.error ()), []) by
      rw [InputParser.next, if_neg hne, hcerr]]
    simp [items_nil]
  | cons t ts' ih =>
    intro fuel hdec hfuel
    obtain ⟨f, rfl⟩ : ∃ f, fuel = f + 1 := ⟨fuel - 1, by omega⟩
    have htail : ((ts'.map enc).flatten ++ chunk) ≠ [] := by
      intro h
      exact hne (List.append_eq_nil.mp h).2
    have hinput : (((t :: ts').map enc).flatten ++ chunk)
        = enc t ++ ((ts'.map enc).flatten ++ chunk) := by
      simp [List.flatten, List.append_assoc]
    have hinput_ne : (((t :: ts').map enc).flatten ++ chunk) ≠ [] := by
      rw [hinput]
      intro h
      exact htail (List.append_eq_nil.mp h).2
    have hnext : InputParser.next dec (((t :: ts').map enc).flatten ++ chunk)
        = (some (Except.ok t), (ts'.map enc).flatten ++ chunk) := by
      rw [InputParser.next, if_neg hinput_ne, hinput,
        hdec t (List.mem_cons_self _ _)]
    simp only [InputParser.items]
    rw [hnext]
    show Except.ok t :: InputParser.items dec f ((ts'.map enc).flatten ++ chunk)
        = (t :: ts').map Except.ok ++ [Except.error ()]
    rw [ih f (fun u hu s => hdec u (List.mem_cons_of_mem _ hu) s) (by
      simp only [List.length_cons] at hfuel
      omega)]
    simp

/-- C6: EOF semantics of the streaming record decoder: on empty input the
stream yields nothing and no error; on a valid record sequence followed by a
non-empty strict prefix of a further record (a chunk the decoder errors on
while consuming the rest of the input), it yields exactly the records in
order, then exactly one error item, and then nothing more — for any
iteration budget past that point. -/
theorem input_parser_eof_semantics {T : Type}
    (dec : List Nat → (Except Unit T) × List Nat) (enc : T → List Nat)
    (ts : List T) (chunk : List Nat) (fuel : Nat)
    (hdec : ∀ t ∈ ts, ∀ s, dec (enc t ++ s) = (Except.ok t, s))
    (hne : chunk ≠ [])
    (hcerr : dec chunk = (Except.error (), []))
    (hfuel : ts.length + 1 ≤ fuel) :
    InputParser.items dec fuel [] = []
    ∧ InputParser.items dec fuel ((ts.map enc).flatten ++ chunk)
        = ts.map Except.ok ++ [Except.error ()] :=
  ⟨items_nil dec fuel, items_decode_chain dec enc chunk hne hcerr ts fuel hdec hfuel⟩

/-- C6 witness: with the toy codec, the records 5 and 7 followed by the
one-byte strict prefix `[1]` decode to two items, one error, then nothing. -/
theorem input_parser_eof_semantics_witness :
    InputParser.items toy_dec 3 [] = []
    ∧ InputParser.items toy_dec 3 [1, 5, 1, 7, 1]
        = [Except.ok 5, Except.ok 7, Except.error ()] := by
  have h := input_parser_eof_semantics toy_dec toy_enc [5, 7] [1] 3
    (by
      intro t ht s
      simp only [List.mem_cons, List.not_mem_nil, or_false] at ht
      rcases ht with rfl | rfl <;> rfl)
    (by simp) rfl (by simp)
  simpa [toy_enc] using h

/-- C7 counterexample: the empty path applied to a tagged value strips the
tag, so `get("", v) = v` fails at `v = Tag(1234, Text "working")` (the
repository's own `get_tag` test records this behavior). -/
theorem get_from_empty_path_tag_cex :
    get_from [] (Value.Tag 1234 (Value.Text "working")) = Value.Text "working"
    ∧ Value.Text "working" ≠ Value.Tag 1234 (Value.Text "working") := by
  constructor
  · simp [get_from]
  · intro h
    exact Value.noConfusion h

/-- C7 (amended): `get("", v) = v` for every value `v` that is not a tagged
value (tags are transparently unwrapped before any selector applies), and
`get(p, null) = null` for every path `p`, so a missing key absorbs all
further selectors without error. -/
theorem get_from_identity_and_null :
    (∀ v : Value, v.is_tag = false → get_from [] v = v)
    ∧ (∀ p : List Value, get_from p Value.Null = Value.Null) := by
  constructor
  · intro v hv
    cases v <;> simp_all [get_from, Value.is_tag]
  · intro p
    cases p <;> simp [get_from]

/-- C7 (amended) witness: a scalar survives the empty path, and any path on
null gives null. -/
theorem get_from_identity_and_null_witness :
    get_from [] (Value.Integer 5) = Value.Integer 5
    ∧ get_from [Value.Text "a"] Value.Null = Value.Null :=
  ⟨get_from_identity_and_null.1 (Value.Integer 5) rfl,
   get_from_identity_and_null.2 [Value.Text "a"]⟩

/-- C8: `cd` commits a working directory only after resolving the argument
against the current directory, canonicalizing it, and checking it is an
existing directory; on any failure the state is unchanged and the exit is
non-success; and (given that canonicalization only produces canonical paths)
"the working directory is a canonical existing directory" is preserved. -/
theorem cd_canonical_dir (fs : FileSys) (Canon : String → Prop)
    (int : Interp) (args : List String)
    (hcanon : ∀ p c, fs.canonicalize p = some c → Canon c) :
    ((Cd.execute fs int args).1 ≠ Exit.SUCCESS → (Cd.execute fs int args).2 = int)
    ∧ (∀ dir, args = [dir] → (Cd.execute fs int args).1 = Exit.SUCCESS →
        ∃ canon, fs.canonicalize (fs.join int.current_dir dir) = some canon ∧
          fs.is_dir canon = true ∧ Canon canon ∧
          (Cd.execute fs int args).2.current_dir = canon)
    ∧ (Canon int.current_dir → fs.is_dir int.current_dir = true →
        Canon (Cd.execute fs int args).2.current_dir ∧
        fs.is_dir (Cd.execute fs int args).2.current_dir = true) := by
  rcases args with _ | ⟨dir, _ | ⟨d2, rest⟩⟩
  · refine ⟨fun _ => rfl, ?_, fun h1 h2 => ⟨h1, h2⟩⟩
    intro d hd
    cases hd
  · by_cases h1 : fs.is_dir (fs.join int.current_dir dir) = true
    · rcases hc : fs.canonicalize (fs.join int.current_dir dir) with _ | canon
      · have hex : Cd.execute fs int [dir] = (Exit.FAILURE, int) := by
          simp [Cd.execute, h1, set_current_dir, hc, Error.as_exit]
        rw [hex]
        refine ⟨fun _ => rfl, ?_, fun ha hb => ⟨ha, hb⟩⟩
        intro d hd hs
        simp [Exit.FAILURE, Exit.SUCCESS] at hs
      · by_cases h2 : fs.is_dir canon = true
        · have hex : Cd.execute fs int [dir] = (Exit.SUCCESS, ⟨canon⟩) := by
            simp [Cd.execute, h1, set_current_dir, hc, h2]
          rw [hex]
          refine ⟨fun hne => absurd rfl hne, ?_, fun _ _ => ⟨hcanon _ _ hc, h2⟩⟩
          intro d hd _
          obtain rfl : dir = d := (List.cons.inj hd).1
          exact ⟨canon, hc, h2, hcanon _ _ hc, rfl⟩
        · have hex : Cd.execute fs int [dir] = (Exit.FAILURE, int) := by
            simp [Cd.execute, h1, set_current_dir, hc, h2, Error.as_exit]
          rw [hex]
          refine ⟨fun _ => rfl, ?_, fun ha hb => ⟨ha, hb⟩⟩
          intro d hd hs
          simp [Exit.FAILURE, Exit.SUCCESS] at hs
    · have hex : Cd.execute fs int [dir] = (Exit.FAILURE, int) := by
        simp [Cd.execute, h1]
      rw [hex]
      refine ⟨fun _ => rfl, ?_, fun ha hb => ⟨ha, hb⟩⟩
      intro d hd hs
      simp [Exit.FAILURE, Exit.SUCCESS] at hs
  · refine ⟨fun _ => rfl, ?_, fun h1 h2 => ⟨h1, h2⟩⟩
    intro d hd
    cases hd

/-- C8 witness: on the two-directory toy filesystem, `cd /a` from `/`
commits the canonical existing directory `/a`. -/
theorem cd_canonical_dir_witness :
    ∃ canon, fsW.canonicalize (fsW.join "/" "/a") = some canon ∧
      fsW.is_dir canon = true ∧ (canon = "/" ∨ canon = "/a") ∧
      (Cd.execute fsW ⟨"/"⟩ ["/a"]).2.current_dir = canon :=
  (cd_canonical_dir fsW (fun q => q = "/" ∨ q = "/a") ⟨"/"⟩ ["/a"]
    (by
      intro p c h
      simp only [fsW] at h
      split_ifs at h with hp1 hp2
      · exact Or.inl (Option.some.inj h).symm
      · exact Or.inr (Option.some.inj h).symm)).2.1 "/a" rfl (by decide)

/-- C9 counterexample: writing the one-byte buffer `[42]` to the null sink
returns `Ok(0)` (the stream reports itself closed), not `Ok(1)` as "the
write succeeds as if all bytes were consumed" would require. -/
theorem null_write_consumes_zero_cex :
    WriteStream.Null.write [42] = Except.ok 0
    ∧ WriteStream.Null.write [42] ≠ Except.ok ([42] : List Nat).length := by
  refine ⟨rfl, fun h => ?_⟩
  simp [WriteStream.write] at h

/-- C9 (amended): a null read returns immediate end-of-input (no bytes, no
error); a null write succeeds without error but reports zero bytes consumed
(the io convention for a closed sink), and a null flush is a no-op. -/
theorem null_stream_semantics :
    (∀ n : Nat, ReadStream.Null.read n = Except.ok [])
    ∧ (∀ buf : List Nat, WriteStream.Null.write buf = Except.ok 0)
    ∧ WriteStream.Null.flush = Except.ok () :=
  ⟨fun _ => rfl, fun _ => rfl, rfl⟩

/-- C10: `To::output_type` is total over all argument lists: exactly one
argument naming `cbor`, `text` or `tty` (after trimming and lowercasing)
gives the corresponding pipe type, and every other argument list (zero
arguments, several arguments, or an unrecognized name) gives `Nothing`
instead of failing. -/
theorem to_output_type_total :
    ∀ args : List String,
      To.output_type args =
        (match args with
         | [s] =>
           if s.trim.toLower = "cbor" then Ty.Cbor
           else if s.trim.toLower = "text" then Ty.Text
           else if s.trim.toLower = "tty" then Ty.Tty
           else Ty.Nothing
         | _ => Ty.Nothing) := by
  intro args
  match args with
  | [] => rfl
  | s :: t :: rest => rfl
  | [s] =>
    simp only [To.output_type, To.parse_args, Ty.from_str]
    split_ifs <;> rfl

end Monch
